import Mathlib

/-!
# Verification of the dependency-graph / job-orchestration core

Shallow embedding of the frontend core of the repository
(`src/frontend/src/hooks/useJobPolling.ts`, the `AlertsDashboard` and
`PackageList` fetch paths bundled in that file, `DependencyTreeSection.tsx`,
and the `DependencyCard` traversal), together with proofs of the behavioural
claims stated in the specification.

Conventions of the embedding:
* React state updates are modelled as explicit record updates.
* The hook and effect machinery is modelled as small-step transition
  functions over event lists (renders, interval ticks with the resolved
  network response, effect runs triggered by dependency changes).
* JavaScript `x || d` on strings (empty string is falsy) and
  `s.includes(sub)` are given explicit executable models.
* `lib/cache` and `lib/dependencyUtils` are not part of the snapshot;
  where a claim depends on them, the missing definition is modelled from
  the specification and marked `Modelled from the spec:` in its doc string.
-/

namespace MongoDemo

/-! ## JobPoller: embedding of useJobPolling.ts -/

/-- `JobStatus` from useJobPolling.ts line 4. -/
inductive JobStatus where
  | pending
  | running
  | completed
  | failed
deriving DecidableEq, Repr

/-- Resolved value of `depsApi.getJobStatus`: a status plus an optional
server-supplied error string. -/
structure StatusResponse where
  status : JobStatus
  error : Option String
deriving DecidableEq, Repr

/-- A JavaScript thrown value as the catch blocks discriminate it:
either an `Error` object carrying a `.message` string, or anything else. -/
inductive ThrownValue where
  | errorObj (message : String)
  | nonError
deriving DecidableEq, Repr

/-- Outcome of one `getJobStatus` call: resolution or rejection. -/
inductive PollResult where
  | ok (resp : StatusResponse)
  | thrown (e : ThrownValue)
deriving DecidableEq, Repr

/-- JavaScript `o || d` on an optional string: `undefined` and the empty
string are both falsy. Used for `result.error || 'Job failed'`. -/
def jsOrDefault (o : Option String) (d : String) : String :=
  match o with
  | none => d
  | some s => if s = "" then d else s

/-- The hook's observable state: the `status`, `isPolling` and `error`
useState cells, plus the two callback refs (`onCompleteRef`, `onErrorRef`).
Callback identities are modelled as numbers. -/
structure PollerState where
  status : Option JobStatus
  isPolling : Bool
  error : Option String
  onCompleteRef : Nat
  onErrorRef : Nat
deriving DecidableEq, Repr

/-- A callback invocation performed by the hook, recording which registered
callback identity was called. -/
inductive CallbackCall where
  | complete (cb : Nat)
  | errorCb (cb : Nat) (msg : String)
deriving DecidableEq, Repr

/-- Message reported for a transport failure, per the catch branch
(lines 57-62): `err instanceof Error ? err.message : 'Failed to poll job status'`. -/
def transportMsg (e : ThrownValue) : String :=
  match e with
  | .errorObj m => m
  | .nonError => "Failed to poll job status"

/-- Embedding of one execution of `pollJobStatus` (lines 41-63) for a
non-null job id, given the resolved/rejected result of the status query.
Returns the updated hook state and the callback invocations it performs.
Note that the terminal branches set `isPolling` to false but contain no
`clearInterval`. -/
def pollJobStatus (s : PollerState) (r : PollResult) : PollerState × List CallbackCall :=
  match r with
  | .ok resp =>
    let s1 := { s with status := some resp.status }
    match resp.status with
    | .completed => ({ s1 with isPolling := false }, [.complete s1.onCompleteRef])
    | .failed =>
      let errorMsg := jsOrDefault resp.error "Job failed"
      ({ s1 with isPolling := false, error := some errorMsg },
        [.errorCb s1.onErrorRef errorMsg])
    | _ => (s1, [])
  | .thrown e =>
    let errorMsg := transportMsg e
    ({ s with error := some errorMsg, isPolling := false },
      [.errorCb s.onErrorRef errorMsg])

/-- An event during one polling session (fixed non-null job id, fixed
interval): a re-render of the consumer supplying possibly-new callback
identities (the ref-updating effect, lines 36-39), or an interval tick whose
status query resolves to `r`. -/
inductive PollEvent where
  | render (onComplete onError : Nat)
  | tick (r : PollResult)
deriving DecidableEq, Repr

/-- State of one polling session: the hook state, how many status checks
have been issued, whether the `setInterval` timer is still armed, and the
callback invocations so far, in order. -/
structure SessionState where
  poller : PollerState
  checksIssued : Nat
  intervalActive : Bool
  calls : List CallbackCall
deriving DecidableEq, Repr

/-- Session start, per the polling effect (lines 65-80) for a non-null job
id: `setIsPolling(true)`, `setError(null)`, `setStatus('pending')`, and the
interval is armed. The callback refs hold the identities from the mounting
render (lines 32-33). -/
def initSession (onComplete onError : Nat) : SessionState :=
  { poller := { status := some .pending, isPolling := true, error := none,
                onCompleteRef := onComplete, onErrorRef := onError },
    checksIssued := 0, intervalActive := true, calls := [] }

/-- One session step. A render updates the callback refs and nothing else
(the polling effect's dependency array is `[jobId, pollInterval,
pollJobStatus]`, none of which change). A tick, while the interval is armed,
issues a status check and runs `pollJobStatus` on its result. The only
`clearInterval` in the source is the effect cleanup (lines 81-83), which
runs when the job id or interval changes or the component unmounts — none
of which occur within a session — so no step disarms the interval. -/
def stepSession (s : SessionState) (e : PollEvent) : SessionState :=
  match e with
  | .render c er =>
    { s with poller := { s.poller with onCompleteRef := c, onErrorRef := er } }
  | .tick r =>
    if s.intervalActive then
      let pc := pollJobStatus s.poller r
      { s with poller := pc.1, checksIssued := s.checksIssued + 1,
               calls := s.calls ++ pc.2 }
    else s

/-- Run a polling session over a list of events. -/
def runSession (init : SessionState) (es : List PollEvent) : SessionState :=
  es.foldl stepSession init

/-- Inputs of one render of `useJobPolling`. -/
structure HookInput where
  jobId : Option String
  pollInterval : Nat
  onComplete : Nat
  onError : Nat
deriving DecidableEq, Repr

/-- Identity of the `pollJobStatus` useCallback (line 63): it is recreated
exactly when `jobId` changes, so its identity is determined by `jobId`. -/
def pollCallbackId (i : HookInput) : Option String := i.jobId

/-- Dependency tuple of the polling effect (line 84):
`[jobId, pollInterval, pollJobStatus]`. -/
def effectDeps (i : HookInput) : Option String × Nat × Option String :=
  (i.jobId, i.pollInterval, pollCallbackId i)

/-- Number of polling loops started by the renders after the first:
the effect body re-runs when its dependency tuple differs from the previous
render's, and starts an interval only when the job id is non-null. -/
def loopStartsFrom (prev : HookInput) : List HookInput → Nat
  | [] => 0
  | i :: rest =>
    (if effectDeps i = effectDeps prev then 0
     else if i.jobId.isSome then 1 else 0) + loopStartsFrom i rest

/-- Total number of polling loops started over a render sequence: the
effect runs on mount and on every dependency change. -/
def loopStarts : List HookInput → Nat
  | [] => 0
  | i :: rest => (if i.jobId.isSome then 1 else 0) + loopStartsFrom i rest

/-! ## ResponseCache and the cached list-fetch paths

`lib/cache` is not in the snapshot; per §4.3 each namespace is a plain
keyed mapping with `get`/`set`/`invalidateAll`. The stores are modelled as
association lists; keys are canonical structures (so identical logical
queries always yield the same key, as §4.3 requires). -/

/-- Modelled from the spec: the cache `getCache` read of `lib/cache` —
look up the stored response for a key, `none` when absent. -/
def assocGet {κ ν : Type} [DecidableEq κ] : List (κ × ν) → κ → Option ν
  | [], _ => none
  | (k1, v) :: rest, k => if k1 = k then some v else assocGet rest k

/-- Modelled from the spec: the cache `setCache` write of `lib/cache` —
store a response under a key (newer entries shadow older ones). -/
def assocSet {κ ν : Type} [DecidableEq κ] (c : List (κ × ν)) (k : κ) (v : ν) :
    List (κ × ν) :=
  (k, v) :: c

/-- `ITEMS_PER_PAGE` (lines 114 and 436 of the bundled file). -/
def itemsPerPage : Nat := 20

/-- A risk alert, restricted to the fields the fetch path reads. -/
structure RiskAlert where
  id : String
  severity : Int
deriving DecidableEq, Repr

/-- Response of `alertsApi.list`. -/
structure AlertsResponse where
  alerts : List RiskAlert
  total : Nat
deriving DecidableEq, Repr

/-- `SortOption` (AlertsDashboard line 439). -/
inductive SortOption where
  | newest
  | oldest
  | severity
deriving DecidableEq, Repr

/-- `StatusFilter` (AlertsDashboard line 438); `open` is a Lean keyword,
rendered here as `openStatus`. -/
inductive StatusFilter where
  | all
  | openStatus
  | investigated
  | resolved
deriving DecidableEq, Repr

/-- The `status` request parameter: `statusFilter !== 'all' ? statusFilter
: undefined` (lines 490 and 526-528). -/
def statusToParam (f : StatusFilter) : Option String :=
  match f with
  | .all => none
  | .openStatus => some "open"
  | .investigated => some "investigated"
  | .resolved => some "resolved"

/-- Stable insertion of an alert into a severity-descending list: the
element goes before the first entry it strictly outranks, so among equal
severities earlier elements stay first. -/
def insertBySeverityDesc (x : RiskAlert) : List RiskAlert → List RiskAlert
  | [] => [x]
  | y :: ys =>
    if y.severity ≤ x.severity then x :: y :: ys
    else y :: insertBySeverityDesc x ys

/-- Model of `alerts.sort((a, b) => b.severity - a.severity)`: a stable
sort into descending severity (`Array.prototype.sort` is stable). -/
def sortBySeverityDesc (xs : List RiskAlert) : List RiskAlert :=
  xs.foldr insertBySeverityDesc []

/-- The client-side display transform applied after every read (lines
497-504 for the cached branch, 535-541 for the network branch): `newest`
keeps the server order, `oldest` reverses it, `severity` sorts descending. -/
def applySort (so : SortOption) (xs : List RiskAlert) : List RiskAlert :=
  match so with
  | .newest => xs
  | .oldest => xs.reverse
  | .severity => sortBySeverityDesc xs

/-- Canonical cache key for the alerts namespace. -/
structure AlertsCacheKey where
  skip : Nat
  limit : Nat
  status : Option String
deriving DecidableEq, Repr

/-- Modelled from the spec: `getAlertsCacheKey` of `lib/cache` is absent
from the snapshot. Per §4.3 the key is a canonical fingerprint of the
server query parameters, and "changing only a client-side sort option
never requires a network round trip or a new cache entry", so the
client-side `sortOption` the call site passes does not enter the
fingerprint. -/
def getAlertsCacheKey (skip limit : Nat) (status : Option String)
    (sortOption : SortOption) : AlertsCacheKey :=
  let _ := sortOption
  { skip := skip, limit := limit, status := status }

/-- The alerts cache namespace. -/
abbrev AlertsCache := List (AlertsCacheKey × AlertsResponse)

/-- Observable outcome of one `fetchAlerts` run: the displayed list and
total, whether `alertsApi.list` was called, and the cache afterwards. -/
structure FetchAlertsOutcome where
  alerts : List RiskAlert
  total : Nat
  fetchedFromApi : Bool
  cache : AlertsCache
deriving DecidableEq, Repr

/-- Embedding of `fetchAlerts` (AlertsDashboard lines 485-550). `server`
is the response `alertsApi.list` would return for this query. On a cache
hit the cached data is re-sorted client-side and no request is made; on a
miss the response is fetched, stored in the cache *before* sorting, and
then sorted for display. -/
def fetchAlerts (cache : AlertsCache) (currentPage : Nat)
    (statusFilter : StatusFilter) (sortOption : SortOption)
    (server : AlertsResponse) : FetchAlertsOutcome :=
  let skip := (currentPage - 1) * itemsPerPage
  let key := getAlertsCacheKey skip itemsPerPage (statusToParam statusFilter) sortOption
  match assocGet cache key with
  | some cachedData =>
    { alerts := applySort sortOption cachedData.alerts,
      total := cachedData.total, fetchedFromApi := false, cache := cache }
  | none =>
    { alerts := applySort sortOption server.alerts,
      total := server.total, fetchedFromApi := true,
      cache := assocSet cache key server }

/-- A package, restricted to the field the list path distinguishes. -/
structure Package where
  name : String
deriving DecidableEq, Repr

/-- Response of `packagesApi.list`. -/
structure PackagesResponse where
  packages : List Package
  total : Nat
deriving DecidableEq, Repr

/-- Canonical cache key for the packages-list namespace. -/
structure PackagesCacheKey where
  skip : Nat
  limit : Nat
  search : Option String
deriving DecidableEq, Repr

/-- Modelled from the spec: `getCacheKey` of `lib/cache` is absent from the
snapshot. Per §4.3 it is a canonical fingerprint of the query parameters
`{skip, limit, search}` passed at the call site (lines 144-148). -/
def getCacheKey (skip limit : Nat) (search : Option String) : PackagesCacheKey :=
  { skip := skip, limit := limit, search := search }

/-- The packages-list cache namespace. -/
abbrev PackagesCache := List (PackagesCacheKey × PackagesResponse)

/-- JavaScript `debouncedSearch || undefined` (lines 147, 166). -/
def searchParam (s : String) : Option String :=
  if s = "" then none else some s

/-- Observable outcome of one `fetchPackages` run. -/
structure FetchPackagesOutcome where
  packages : List Package
  total : Nat
  fetchedFromApi : Bool
  cache : PackagesCache
deriving DecidableEq, Repr

/-- Embedding of `fetchPackages` (PackageList lines 142-179). `server` is
the response `packagesApi.list` would return for this query. A cache hit
returns the stored response with no request; a miss fetches, displays and
stores the response. -/
def fetchPackages (cache : PackagesCache) (currentPage : Nat)
    (debouncedSearch : String) (server : PackagesResponse) :
    FetchPackagesOutcome :=
  let skip := (currentPage - 1) * itemsPerPage
  let key := getCacheKey skip itemsPerPage (searchParam debouncedSearch)
  match assocGet cache key with
  | some cachedData =>
    { packages := cachedData.packages, total := cachedData.total,
      fetchedFromApi := false, cache := cache }
  | none =>
    { packages := server.packages, total := server.total,
      fetchedFromApi := true, cache := assocSet cache key server }

/-! ## CrawlOrchestrator: embedding of DependencyTreeSection.tsx -/

/-- `pat` is a contiguous run of `s`, starting at the head. -/
def charsPrefix : List Char → List Char → Bool
  | [], _ => true
  | _ :: _, [] => false
  | a :: as, b :: bs => a == b && charsPrefix as bs

/-- `pat` occurs contiguously somewhere in `s`. -/
def charsIncludes (pat : List Char) : List Char → Bool
  | [] => charsPrefix pat []
  | c :: rest => charsPrefix pat (c :: rest) || charsIncludes pat rest

/-- JavaScript `s.includes(pat)`: substring containment. -/
def strIncludes (s pat : String) : Bool :=
  charsIncludes pat.toList s.toList

/-- Result of the inner `depsApi.get(packageName, versionToFetch)` call as
the surrounding try/catch observes it (DependencyTreeSection lines
100-114): it resolves with tree data or rejects with a thrown value. -/
inductive DepsGetResult where
  | ok
  | err (e : ThrownValue)
deriving DecidableEq, Repr

/-- What one run of the fetch effect does once the version is resolved. -/
inductive FetchAction where
  | treeLoaded
  | crawlTriggered (jobId : String)
  | errored (msg : String)
deriving DecidableEq, Repr

/-- Message the outer catch surfaces (line 116):
`err instanceof Error ? err.message : 'Failed to fetch dependencies'`. -/
def fetchErrMsg (e : ThrownValue) : String :=
  match e with
  | .errorObj m => m
  | .nonError => "Failed to fetch dependencies"

/-- Embedding of the branch decision of `fetchDependencies` (lines
99-118): success sets the tree; a thrown `Error` whose message contains
the substring `not found` triggers a crawl, capturing the job id
`depsApi.triggerFetch` returns; every other failure is rethrown to the
outer catch and surfaced as the error state. -/
def fetchDependenciesBranch (r : DepsGetResult) (jobIdFromApi : String) :
    FetchAction :=
  match r with
  | .ok => .treeLoaded
  | .err e =>
    match e with
    | .errorObj m =>
      if strIncludes m "not found" then .crawlTriggered jobIdFromApi
      else .errored m
    | .nonError => .errored (fetchErrMsg .nonError)

/-- Error message of the `NotFound` rejection of the entity fetch API; any
message containing `not found` behaves the same (cf. claim C10). -/
def notFoundMessage : String := "Dependency tree not found"

/-- Composed state of one `DependencyTreeSection` instance together with
the entity store it talks to: the `jobId`, `tree`, `loading`, `error`
useState cells; whether the crawl has populated the store
(per spec §6/§ 4.4 the completed crawl makes the stored tree available);
whether the job has settled as completed; and call counters for
`depsApi.get` (the entity fetch) and `depsApi.triggerFetch` (the crawl
trigger). -/
structure OrchState where
  hasJob : Option String
  treeLoaded : Bool
  loading : Bool
  errorMsg : Option String
  storageHasTree : Bool
  settledCompleted : Bool
  entityFetchCalls : Nat
  entityFetchAfterSettle : Nat
  crawlCalls : Nat
deriving DecidableEq, Repr

/-- The entity store's answer to `depsApi.get`, per spec §6: `NotFound`
until the crawl has populated it. -/
def storeResult (s : OrchState) : DepsGetResult :=
  if s.storageHasTree then .ok else .err (.errorObj notFoundMessage)

/-- One run of the `fetchDependencies` effect body (lines 75-122): it
returns immediately while a job id is active (`if (jobId) return`, line
78); otherwise it sets loading, clears the error, calls `depsApi.get`
(counted, and counted again separately once the job has settled) and acts
on the branch decision. -/
def runFetchEffect (jobIdFromApi : String) (s : OrchState) : OrchState :=
  if s.hasJob.isSome then s
  else
    let s1 := { s with loading := true, errorMsg := none,
                       entityFetchCalls := s.entityFetchCalls + 1,
                       entityFetchAfterSettle := s.entityFetchAfterSettle +
                         (if s.settledCompleted then 1 else 0) }
    match fetchDependenciesBranch (storeResult s1) jobIdFromApi with
    | .treeLoaded => { s1 with treeLoaded := true, loading := false }
    | .crawlTriggered j =>
      { s1 with crawlCalls := s1.crawlCalls + 1, hasJob := some j }
    | .errored m => { s1 with errorMsg := some m, loading := false }

/-- Events hitting a mounted `DependencyTreeSection`: a re-render of the
surrounding context (the effect's dependency array `[packageName, version,
jobId]` is unchanged, so the effect body does not run), or a poll tick of
the active job resolving with the given status. -/
inductive OrchEvent where
  | rerender
  | tick (st : JobStatus)
deriving DecidableEq, Repr

/-- One orchestration step. A `completed` tick runs the `onComplete`
callback (lines 43-66): it re-fetches the tree via `depsApi.get` — the
crawl having populated the store — and in its `finally` clears the job id,
which changes the effect's dependencies and re-runs the fetch effect. A
`failed` tick runs `onError` (lines 67-71): it records the message, clears
the job id, and the same dependency change re-runs the fetch effect.
Non-terminal ticks change nothing. -/
def orchStep (jid : String) (s : OrchState) (e : OrchEvent) : OrchState :=
  match e with
  | .rerender => s
  | .tick st =>
    match s.hasJob with
    | none => s
    | some _ =>
      match st with
      | .completed =>
        let s1 := { s with storageHasTree := true, settledCompleted := true }
        let s2 := { s1 with entityFetchCalls := s1.entityFetchCalls + 1,
                            entityFetchAfterSettle := s1.entityFetchAfterSettle + 1,
                            treeLoaded := true }
        let s3 := { s2 with hasJob := none, loading := false }
        runFetchEffect jid s3
      | .failed =>
        let s1 := { s with errorMsg := some "Job failed", hasJob := none,
                           loading := false }
        runFetchEffect jid s1
      | _ => s

/-- State before the first effect run. -/
def orchInit : OrchState :=
  { hasJob := none, treeLoaded := false, loading := false, errorMsg := none,
    storageHasTree := false, settledCompleted := false,
    entityFetchCalls := 0, entityFetchAfterSettle := 0, crawlCalls := 0 }

/-- Mounting the section runs the fetch effect once; for a package with no
stored tree this triggers the crawl and records the returned job id. -/
def orchMount (jid : String) : OrchState :=
  runFetchEffect jid orchInit

/-- Run the mounted section over a list of events. -/
def orchRun (jid : String) (es : List OrchEvent) : OrchState :=
  es.foldl (orchStep jid) (orchMount jid)

/-! ## Dependency tree data model (DependencyNode of lib/api, as consumed
by DependencyCard) -/

mutual

/-- A `DependencyNode`: resolved version, requested spec, and the
`children` record. -/
inductive DependencyNode where
  | mk (resolvedVersion spec : String) (children : NodeChildren)

/-- The `children` record: one optional name-keyed map per edge type
(absent key = no edges of that type), plus the auxiliary `maintainers`
metadata list. -/
inductive NodeChildren where
  | mk (dependencies devDependencies optionalDependencies peerDependencies :
        Option NodeMap)
       (maintainers : List String)

/-- A JavaScript object mapping child name to node, in key order. -/
inductive NodeMap where
  | nil
  | cons (name : String) (node : DependencyNode) (rest : NodeMap)

end

/-- The `children` field. -/
def DependencyNode.children : DependencyNode → NodeChildren
  | .mk _ _ c => c

/-- The `dependencies` key. -/
def NodeChildren.dependencies : NodeChildren → Option NodeMap
  | .mk d _ _ _ _ => d

/-- The `devDependencies` key. -/
def NodeChildren.devDependencies : NodeChildren → Option NodeMap
  | .mk _ d _ _ _ => d

/-- The `optionalDependencies` key. -/
def NodeChildren.optionalDependencies : NodeChildren → Option NodeMap
  | .mk _ _ d _ _ => d

/-- The `peerDependencies` key. -/
def NodeChildren.peerDependencies : NodeChildren → Option NodeMap
  | .mk _ _ _ d _ => d

/-- `Object.keys(deps).length`. -/
def NodeMap.length : NodeMap → Nat
  | .nil => 0
  | .cons _ _ rest => rest.length + 1

/-- The four edge-type keys. -/
inductive EdgeType where
  | dependencies
  | devDependencies
  | optionalDependencies
  | peerDependencies
deriving DecidableEq, Repr

/-- The `depTypes` array of `countNodeDeps` (DependencyCard line 222), in
source order. -/
def depTypes : List EdgeType :=
  [.dependencies, .devDependencies, .optionalDependencies, .peerDependencies]

/-- `node.children[depType]`. -/
def childrenOfType (c : NodeChildren) : EdgeType → Option NodeMap
  | .dependencies => c.dependencies
  | .devDependencies => c.devDependencies
  | .optionalDependencies => c.optionalDependencies
  | .peerDependencies => c.peerDependencies

/-- Embedding of `countNodeDeps` (DependencyCard lines 219-232): a loop
over the four edge-type keys adding `Object.keys(deps).length` for each
key that is present. The function never recurses into child nodes. -/
def countNodeDeps (node : DependencyNode) : Nat :=
  depTypes.foldl
    (fun count depType =>
      match childrenOfType node.children depType with
      | some deps => count + deps.length
      | none => count)
    0

/-- Length of an optional edge-type map, zero when the key is absent. -/
def optMapLen (o : Option NodeMap) : Nat :=
  match o with
  | some m => m.length
  | none => 0

/-- Replace every node in a map by the image of `f`, keeping names and
order. -/
def NodeMap.mapNodes (f : DependencyNode → DependencyNode) : NodeMap → NodeMap
  | .nil => .nil
  | .cons name node rest => .cons name (f node) (rest.mapNodes f)

/-- Replace the subtree below each direct child of a node, leaving the
node's own shape (names and number of direct children per key)
untouched. -/
def replaceDirectChildren (f : DependencyNode → DependencyNode) :
    DependencyNode → DependencyNode
  | .mk rv sp (.mk d dv op pe ms) =>
    .mk rv sp (.mk (d.map (NodeMap.mapNodes f)) (dv.map (NodeMap.mapNodes f))
      (op.map (NodeMap.mapNodes f)) (pe.map (NodeMap.mapNodes f)) ms)

mutual

/-- Embedding of the `DependencyCard` recursive descent (DependencyCard
lines 149-211) with every card expanded: the cards rendered strictly below
a node shown at `depth`, as (name, depth) pairs in render order — the
`dependencies`, `devDependencies`, `optionalDependencies` and
`peerDependencies` entries in turn, each child rendered at `depth + 1` and
recursively rendering its own children. No branch of the source tests the
depth. -/
def cardDescendants (node : DependencyNode) (depth : Nat) : List (String × Nat) :=
  match node with
  | .mk _ _ (.mk d dv op pe _) =>
    optDescend d (depth + 1) ++ optDescend dv (depth + 1) ++
      optDescend op (depth + 1) ++ optDescend pe (depth + 1)

/-- Descent through one optional edge-type map. -/
def optDescend (o : Option NodeMap) (depth : Nat) : List (String × Nat) :=
  match o with
  | none => []
  | some m => mapDescend m depth

/-- Descent through the entries of one edge-type map: each entry renders a
card at `depth` followed by its own expanded children. -/
def mapDescend (m : NodeMap) (depth : Nat) : List (String × Nat) :=
  match m with
  | .nil => []
  | .cons name node rest =>
    ((name, depth) :: cardDescendants node depth) ++ mapDescend rest depth

end

/-- A node with no children keys. -/
def leafNode : DependencyNode :=
  .mk "1.0.0" "^1.0.0" (.mk none none none none [])

/-- A linear chain of `n` nested `dependencies` edges below a root. -/
def chainNode : Nat → DependencyNode
  | 0 => leafNode
  | n + 1 =>
    .mk "1.0.0" "^1.0.0"
      (.mk (some (.cons "child" (chainNode n) .nil)) none none none [])

/-! ## TreeAggregator: filterByType (lib/dependencyUtils, absent from the
snapshot) -/

/-- `DependencyType` of lib/dependencyUtils, as used by the filter
buttons (DependencyTreeSection lines 143-151). -/
inductive DependencyType where
  | prod
  | dev
  | optional
  | peer
deriving DecidableEq, Repr

/-- A `ProcessedDependency`: the flattened, depth-tagged projection of one
node (spec §3). -/
structure ProcessedDependency where
  name : String
  version : String
  spec : String
  type : DependencyType
  depth : Nat
  childCount : Nat
  node : DependencyNode

/-- Modelled from the spec: `filterByType` of lib/dependencyUtils is
absent from the snapshot. Per §4.1, for each depth bucket it retains only
the entries whose `type` is in the requested set, and depths whose bucket
becomes empty are dropped entirely; an empty requested set yields an
entirely empty mapping with no implicit show-all fallback. The
depth-grouped mapping is represented as an association list from depth to
bucket. -/
def filterByType (grouped : List (Nat × List ProcessedDependency))
    (types : List DependencyType) : List (Nat × List ProcessedDependency) :=
  (grouped.map
      (fun bucket => (bucket.1, bucket.2.filter (fun p => types.contains p.type)))).filter
    (fun bucket => !bucket.2.isEmpty)

/-! ## Helper lemmas -/

theorem nodeMap_length_mapNodes (f : DependencyNode → DependencyNode) :
    ∀ m : NodeMap, (m.mapNodes f).length = m.length
  | .nil => rfl
  | .cons _ _ rest => by
    simp [NodeMap.mapNodes, NodeMap.length, nodeMap_length_mapNodes f rest]

theorem countNodeDeps_mk (rv sp : String) (d dv op pe : Option NodeMap)
    (ms : List String) :
    countNodeDeps (.mk rv sp (.mk d dv op pe ms)) =
      optMapLen d + optMapLen dv + optMapLen op + optMapLen pe := by
  cases d <;> cases dv <;> cases op <;> cases pe <;>
    simp [countNodeDeps, depTypes, childrenOfType, DependencyNode.children,
      NodeChildren.dependencies, NodeChildren.devDependencies,
      NodeChildren.optionalDependencies, NodeChildren.peerDependencies,
      optMapLen]

theorem cardDescendants_chain_succ (n d : Nat) :
    cardDescendants (chainNode (n + 1)) d =
      ("child", d + 1) :: cardDescendants (chainNode n) (d + 1) := by
  simp [chainNode, cardDescendants, optDescend, mapDescend]

/-! ## Claim theorems -/

/-- C7: for every dependency node, `countNodeDeps(node)` equals the sum,
over the four edge-type keys present on `node.children`, of the number of
direct child entries under that key; and it counts only direct children —
replacing the entire subtree below every direct child leaves its value
unchanged. -/
theorem countNodeDeps_direct_children_only (n : DependencyNode)
    (f : DependencyNode → DependencyNode) :
    countNodeDeps n =
      optMapLen n.children.dependencies + optMapLen n.children.devDependencies +
        optMapLen n.children.optionalDependencies +
        optMapLen n.children.peerDependencies ∧
    countNodeDeps (replaceDirectChildren f n) = countNodeDeps n := by
  cases n with
  | mk rv sp ch =>
    cases ch with
    | mk d dv op pe ms =>
      constructor
      · simpa [DependencyNode.children, NodeChildren.dependencies,
          NodeChildren.devDependencies, NodeChildren.optionalDependencies,
          NodeChildren.peerDependencies] using countNodeDeps_mk rv sp d dv op pe ms
      · cases d <;> cases dv <;> cases op <;> cases pe <;>
          simp [replaceDirectChildren, countNodeDeps_mk, optMapLen,
            nodeMap_length_mapNodes]

/-- C8: for every depth-grouped mapping and requested type set, the result
of `filterByType` contains only entries whose type is in the set, contains
no depth key mapping to an empty bucket (emptied buckets are dropped), and
for the empty requested set the result is the entirely empty mapping. -/
theorem filterByType_spec_holds (g : List (Nat × List ProcessedDependency))
    (types : List DependencyType) :
    (∀ b ∈ filterByType g types, b.2 ≠ [] ∧ ∀ p ∈ b.2, p.type ∈ types) ∧
    filterByType g [] = [] := by
  constructor
  · intro b hb
    simp only [filterByType, List.mem_filter, List.mem_map] at hb
    obtain ⟨⟨a, _, rfl⟩, hne⟩ := hb
    refine ⟨by simpa using hne, ?_⟩
    intro p hp
    have hmem := List.of_mem_filter hp
    simpa using hmem
  · simp [filterByType]

/-- C10: the orchestrator decides the crawl branch purely by substring
matching on the thrown error's message: a crawl is triggered if and only
if the entity fetch rejected with an `Error` whose message contains the
substring `not found`; every other fetch failure is surfaced as the error
state (the `Error`'s message, or the generic fallback for a non-`Error`)
and never triggers a crawl. -/
theorem fetchDependencies_crawl_iff (r : DepsGetResult) (jid : String) :
    ((∃ m, r = .err (.errorObj m) ∧ strIncludes m "not found" = true) ↔
      fetchDependenciesBranch r jid = .crawlTriggered jid) ∧
    (∀ e, r = .err e → fetchDependenciesBranch r jid ≠ .crawlTriggered jid →
      fetchDependenciesBranch r jid = .errored (fetchErrMsg e)) := by
  constructor
  · constructor
    · rintro ⟨m, rfl, h⟩
      simp [fetchDependenciesBranch, h]
    · intro h
      cases r with
      | ok => simp [fetchDependenciesBranch] at h
      | err e =>
        cases e with
        | errorObj m =>
          by_cases hm : strIncludes m "not found" = true
          · exact ⟨m, rfl, hm⟩
          · simp [fetchDependenciesBranch, hm] at h
        | nonError => simp [fetchDependenciesBranch] at h
  · rintro e rfl hne
    cases e with
    | errorObj m =>
      by_cases hm : strIncludes m "not found" = true
      · exact absurd (by simp [fetchDependenciesBranch, hm]) hne
      · simp [fetchDependenciesBranch, hm, fetchErrMsg]
    | nonError => simp [fetchDependenciesBranch]

/-- C10 witness: a rejection with message `Dependency tree not found`
triggers the crawl. -/
theorem fetchDependencies_crawl_iff_witness :
    strIncludes "Dependency tree not found" "not found" = true ∧
    fetchDependenciesBranch (.err (.errorObj "Dependency tree not found"))
      "job-1" = .crawlTriggered "job-1" := by
  have h : strIncludes "Dependency tree not found" "not found" = true := by decide
  exact ⟨h,
    (fetchDependencies_crawl_iff (.err (.errorObj "Dependency tree not found"))
        "job-1").1.mp ⟨"Dependency tree not found", rfl, h⟩⟩

/-- C5: a transport failure on an individual status check settles the
poller (isPolling becomes false), records the thrown error's message (or
the default message when the thrown value is not an `Error`), and invokes
the error callback exactly once with that message — the same observable
effect as a `failed` status carrying that message. -/
theorem transport_failure_settles (s : PollerState) (e : ThrownValue) :
    (pollJobStatus s (.thrown e)).1.isPolling = false ∧
    (pollJobStatus s (.thrown e)).1.error = some (transportMsg e) ∧
    (pollJobStatus s (.thrown e)).2 = [.errorCb s.onErrorRef (transportMsg e)] ∧
    transportMsg .nonError = "Failed to poll job status" ∧
    (∀ m, transportMsg (.errorObj m) = m) ∧
    (transportMsg e ≠ "" →
      (pollJobStatus s (.thrown e)).2 =
        (pollJobStatus s (.ok ⟨.failed, some (transportMsg e)⟩)).2 ∧
      (pollJobStatus s (.thrown e)).1.isPolling =
        (pollJobStatus s (.ok ⟨.failed, some (transportMsg e)⟩)).1.isPolling ∧
      (pollJobStatus s (.thrown e)).1.error =
        (pollJobStatus s (.ok ⟨.failed, some (transportMsg e)⟩)).1.error) := by
  refine ⟨rfl, rfl, rfl, rfl, fun m => rfl, fun h => ?_⟩
  simp [pollJobStatus, jsOrDefault, h]

/-- C5 witness: a thrown `Error` with message `network unreachable`
settles the poller and reports that message to the error callback. -/
theorem transport_failure_settles_witness :
    (pollJobStatus (initSession 1 2).poller
      (.thrown (.errorObj "network unreachable"))).1.isPolling = false ∧
    (pollJobStatus (initSession 1 2).poller
      (.thrown (.errorObj "network unreachable"))).1.error =
        some "network unreachable" ∧
    (pollJobStatus (initSession 1 2).poller
      (.thrown (.errorObj "network unreachable"))).2 =
        [.errorCb 2 "network unreachable"] ∧
    (pollJobStatus (initSession 1 2).poller
      (.thrown (.errorObj "network unreachable"))).2 =
      (pollJobStatus (initSession 1 2).poller
        (.ok ⟨.failed, some "network unreachable"⟩)).2 := by
  have h := transport_failure_settles (initSession 1 2).poller
    (.errorObj "network unreachable")
  exact ⟨h.1, h.2.1, h.2.2.1, (h.2.2.2.2.2 (by decide)).1⟩

/-- C1 (refuting theorem): with the job id unchanged, two consecutive
ticks that both resolve `completed` each issue a status check and each
invoke the completion callback: nothing in the hook's terminal branch
clears the interval (`clearInterval` appears only in the effect cleanup,
which runs on job-id change or unmount), so the callback is not invoked
exactly once and further status checks are issued after the terminal
status. -/
theorem jobPoller_interval_survives_terminal :
    (runSession (initSession 7 8)
        [PollEvent.tick (.ok ⟨.completed, none⟩),
          PollEvent.tick (.ok ⟨.completed, none⟩)]).calls =
      [CallbackCall.complete 7, CallbackCall.complete 7] ∧
    (runSession (initSession 7 8)
        [PollEvent.tick (.ok ⟨.completed, none⟩),
          PollEvent.tick (.ok ⟨.completed, none⟩)]).checksIssued = 2 ∧
    (runSession (initSession 7 8)
        [PollEvent.tick (.ok ⟨.completed, none⟩),
          PollEvent.tick (.ok ⟨.completed, none⟩)]).intervalActive = true ∧
    ¬ ((runSession (initSession 7 8)
        [PollEvent.tick (.ok ⟨.completed, none⟩),
          PollEvent.tick (.ok ⟨.completed, none⟩)]).calls.length = 1) := by
  decide

/-- C9 (refuting theorem): for every candidate depth ceiling `B`, fully
expanding the `DependencyCard`s of a `dependencies` chain of length
`B + 1`, starting at depth 1, renders a card at a depth exceeding `B`: no
branch of the recursive descent tests the depth, so no fixed bound is
treated as a leaf level and the descent is truncated nowhere (termination
relies solely on the input being finite and acyclic). -/
theorem cardDescent_exceeds_any_bound (B : Nat) :
    ∃ p ∈ cardDescendants (chainNode (B + 1)) 1, B < p.2 := by
  have key : ∀ n, ∀ d : Nat, ("child", d + n + 1) ∈
      cardDescendants (chainNode (n + 1)) d := by
    intro n
    induction n with
    | zero =>
      intro d
      rw [cardDescendants_chain_succ]
      exact List.mem_cons_self _ _
    | succ k ih =>
      intro d
      rw [cardDescendants_chain_succ]
      have hk := ih (d + 1)
      have harith : d + 1 + k + 1 = d + (k + 1) + 1 := by omega
      rw [harith] at hk
      exact List.mem_cons_of_mem _ hk
  exact ⟨("child", 1 + B + 1), key B 1, by omega⟩

/-- C3: on a cache miss only the raw (unsorted) server response is stored;
the client-side sort transform is applied on every read, both on the
network path and on the cached path; and because the sort option is not
part of the cache fingerprint, re-reading with only the sort option
changed is still a cache hit — no network request is made and no cache
entry is created. -/
theorem alerts_cache_sort_on_read (c0 c : AlertsCache) (page : Nat)
    (f : StatusFilter) (so so2 : SortOption) (server resp : AlertsResponse)
    (hmiss : assocGet c0 (getAlertsCacheKey ((page - 1) * itemsPerPage)
      itemsPerPage (statusToParam f) so) = none)
    (hhit : assocGet c (getAlertsCacheKey ((page - 1) * itemsPerPage)
      itemsPerPage (statusToParam f) so) = some resp) :
    (fetchAlerts c0 page f so server).fetchedFromApi = true ∧
    assocGet (fetchAlerts c0 page f so server).cache
      (getAlertsCacheKey ((page - 1) * itemsPerPage) itemsPerPage
        (statusToParam f) so) = some server ∧
    (fetchAlerts c0 page f so server).alerts = applySort so server.alerts ∧
    (fetchAlerts c page f so server).fetchedFromApi = false ∧
    (fetchAlerts c page f so server).cache = c ∧
    (fetchAlerts c page f so server).alerts = applySort so resp.alerts ∧
    getAlertsCacheKey ((page - 1) * itemsPerPage) itemsPerPage
        (statusToParam f) so2 =
      getAlertsCacheKey ((page - 1) * itemsPerPage) itemsPerPage
        (statusToParam f) so ∧
    (fetchAlerts c page f so2 server).fetchedFromApi = false ∧
    (fetchAlerts c page f so2 server).cache = c ∧
    (fetchAlerts c page f so2 server).alerts = applySort so2 resp.alerts := by
  simp only [getAlertsCacheKey] at hmiss hhit
  refine ⟨?_, ?_, ?_, ?_, ?_, ?_, rfl, ?_, ?_, ?_⟩ <;>
    simp [fetchAlerts, getAlertsCacheKey, hmiss, hhit, assocSet, assocGet]

/-- C3 witness: with status filter `all` on page 1, a populated cache
entry is re-read and re-sorted with no network call when only the sort
option changes from `newest` to `severity`. -/
theorem alerts_cache_sort_on_read_witness :
    (fetchAlerts [] 1 .all .newest ⟨[⟨"a1", 3⟩, ⟨"a2", 7⟩], 2⟩).fetchedFromApi
        = true ∧
    assocGet (fetchAlerts [] 1 .all .newest
        ⟨[⟨"a1", 3⟩, ⟨"a2", 7⟩], 2⟩).cache
      (getAlertsCacheKey 0 itemsPerPage none SortOption.newest) =
        some ⟨[⟨"a1", 3⟩, ⟨"a2", 7⟩], 2⟩ ∧
    (fetchAlerts [] 1 .all .newest ⟨[⟨"a1", 3⟩, ⟨"a2", 7⟩], 2⟩).alerts =
      applySort .newest [⟨"a1", 3⟩, ⟨"a2", 7⟩] ∧
    (fetchAlerts [(getAlertsCacheKey 0 itemsPerPage none SortOption.newest,
        ⟨[⟨"a1", 3⟩, ⟨"a2", 7⟩], 2⟩)] 1 .all .newest
        ⟨[⟨"a1", 3⟩, ⟨"a2", 7⟩], 2⟩).fetchedFromApi = false ∧
    (fetchAlerts [(getAlertsCacheKey 0 itemsPerPage none SortOption.newest,
        ⟨[⟨"a1", 3⟩, ⟨"a2", 7⟩], 2⟩)] 1 .all .newest
        ⟨[⟨"a1", 3⟩, ⟨"a2", 7⟩], 2⟩).cache =
      [(getAlertsCacheKey 0 itemsPerPage none SortOption.newest,
        ⟨[⟨"a1", 3⟩, ⟨"a2", 7⟩], 2⟩)] ∧
    (fetchAlerts [(getAlertsCacheKey 0 itemsPerPage none SortOption.newest,
        ⟨[⟨"a1", 3⟩, ⟨"a2", 7⟩], 2⟩)] 1 .all .newest
        ⟨[⟨"a1", 3⟩, ⟨"a2", 7⟩], 2⟩).alerts =
      applySort .newest [⟨"a1", 3⟩, ⟨"a2", 7⟩] ∧
    getAlertsCacheKey 0 itemsPerPage none SortOption.severity =
      getAlertsCacheKey 0 itemsPerPage none SortOption.newest ∧
    (fetchAlerts [(getAlertsCacheKey 0 itemsPerPage none SortOption.newest,
        ⟨[⟨"a1", 3⟩, ⟨"a2", 7⟩], 2⟩)] 1 .all .severity
        ⟨[⟨"a1", 3⟩, ⟨"a2", 7⟩], 2⟩).fetchedFromApi = false ∧
    (fetchAlerts [(getAlertsCacheKey 0 itemsPerPage none SortOption.newest,
        ⟨[⟨"a1", 3⟩, ⟨"a2", 7⟩], 2⟩)] 1 .all .severity
        ⟨[⟨"a1", 3⟩, ⟨"a2", 7⟩], 2⟩).cache =
      [(getAlertsCacheKey 0 itemsPerPage none SortOption.newest,
        ⟨[⟨"a1", 3⟩, ⟨"a2", 7⟩], 2⟩)] ∧
    (fetchAlerts [(getAlertsCacheKey 0 itemsPerPage none SortOption.newest,
        ⟨[⟨"a1", 3⟩, ⟨"a2", 7⟩], 2⟩)] 1 .all .severity
        ⟨[⟨"a1", 3⟩, ⟨"a2", 7⟩], 2⟩).alerts =
      applySort .severity [⟨"a1", 3⟩, ⟨"a2", 7⟩] := by
  exact alerts_cache_sort_on_read []
    [(getAlertsCacheKey 0 itemsPerPage none SortOption.newest,
      ⟨[⟨"a1", 3⟩, ⟨"a2", 7⟩], 2⟩)]
    1 .all .newest .severity ⟨[⟨"a1", 3⟩, ⟨"a2", 7⟩], 2⟩
    ⟨[⟨"a1", 3⟩, ⟨"a2", 7⟩], 2⟩ (by decide) (by decide)

/-- C4: for every query key, a cache miss falls through to the real fetch
and the response is then stored under that key; re-issuing the same
logical query against the resulting cache is a hit that short-circuits
with no fetch call and no cache change, returning the stored response —
so two successive identical queries with no intervening mutation make
exactly one call to the backing list API. -/
theorem packages_cache_single_fetch (c0 : PackagesCache) (page : Nat)
    (search : String) (server : PackagesResponse)
    (hmiss : assocGet c0 (getCacheKey ((page - 1) * itemsPerPage)
      itemsPerPage (searchParam search)) = none) :
    (fetchPackages c0 page search server).fetchedFromApi = true ∧
    assocGet (fetchPackages c0 page search server).cache
      (getCacheKey ((page - 1) * itemsPerPage) itemsPerPage
        (searchParam search)) = some server ∧
    (fetchPackages c0 page search server).packages = server.packages ∧
    (fetchPackages (fetchPackages c0 page search server).cache page search
        server).fetchedFromApi = false ∧
    (fetchPackages (fetchPackages c0 page search server).cache page search
        server).cache = (fetchPackages c0 page search server).cache ∧
    (fetchPackages (fetchPackages c0 page search server).cache page search
        server).packages = server.packages ∧
    ((if (fetchPackages c0 page search server).fetchedFromApi then 1 else 0) +
      (if (fetchPackages (fetchPackages c0 page search server).cache page
          search server).fetchedFromApi then 1 else 0)) = 1 := by
  simp only [getCacheKey] at hmiss
  refine ⟨?_, ?_, ?_, ?_, ?_, ?_, ?_⟩ <;>
    simp [fetchPackages, getCacheKey, hmiss, assocSet, assocGet]

/-- C4 witness: querying page 1 with search `left-pad` twice against an
initially empty cache fetches exactly once and returns the stored
response the second time. -/
theorem packages_cache_single_fetch_witness :
    (fetchPackages [] 1 "left-pad" ⟨[⟨"left-pad"⟩], 1⟩).fetchedFromApi = true ∧
    assocGet (fetchPackages [] 1 "left-pad" ⟨[⟨"left-pad"⟩], 1⟩).cache
      (getCacheKey 0 itemsPerPage (searchParam "left-pad")) =
        some ⟨[⟨"left-pad"⟩], 1⟩ ∧
    (fetchPackages [] 1 "left-pad" ⟨[⟨"left-pad"⟩], 1⟩).packages =
      [⟨"left-pad"⟩] ∧
    (fetchPackages (fetchPackages [] 1 "left-pad"
        ⟨[⟨"left-pad"⟩], 1⟩).cache 1 "left-pad"
        ⟨[⟨"left-pad"⟩], 1⟩).fetchedFromApi = false ∧
    (fetchPackages (fetchPackages [] 1 "left-pad"
        ⟨[⟨"left-pad"⟩], 1⟩).cache 1 "left-pad" ⟨[⟨"left-pad"⟩], 1⟩).cache =
      (fetchPackages [] 1 "left-pad" ⟨[⟨"left-pad"⟩], 1⟩).cache ∧
    (fetchPackages (fetchPackages [] 1 "left-pad"
        ⟨[⟨"left-pad"⟩], 1⟩).cache 1 "left-pad"
        ⟨[⟨"left-pad"⟩], 1⟩).packages = [⟨"left-pad"⟩] ∧
    ((if (fetchPackages [] 1 "left-pad"
          ⟨[⟨"left-pad"⟩], 1⟩).fetchedFromApi then 1 else 0) +
      (if (fetchPackages (fetchPackages [] 1 "left-pad"
          ⟨[⟨"left-pad"⟩], 1⟩).cache 1 "left-pad"
          ⟨[⟨"left-pad"⟩], 1⟩).fetchedFromApi then 1 else 0)) = 1 := by
  exact packages_cache_single_fetch [] 1 "left-pad" ⟨[⟨"left-pad"⟩], 1⟩
    (by decide)

theorem getLastD_onComplete_congr (d1 d2 : HookInput)
    (h : d1.onComplete = d2.onComplete) :
    ∀ rs : List HookInput, (rs.getLastD d1).onComplete = (rs.getLastD d2).onComplete
  | [] => h
  | x :: rs => by rw [List.getLastD_cons, List.getLastD_cons]

theorem loopStartsFrom_const (i : HookInput) :
    ∀ (prev : HookInput) (rs : List HookInput), effectDeps prev = effectDeps i →
      (∀ x ∈ rs, effectDeps x = effectDeps i) → loopStartsFrom prev rs = 0
  | _, [], _, _ => rfl
  | prev, x :: rs, hp, hall => by
    have hx : effectDeps x = effectDeps i := hall x (by simp)
    have hxp : effectDeps x = effectDeps prev := by rw [hx, hp]
    have hrec := loopStartsFrom_const i x rs hx
      (fun y hy => hall y (List.mem_cons_of_mem _ hy))
    simp [loopStartsFrom, hxp, hrec]

theorem calls_after_renders_then_complete :
    ∀ (rs : List HookInput) (c e : Nat),
      (runSession (initSession c e)
          (rs.map (fun x => PollEvent.render x.onComplete x.onError) ++
            [PollEvent.tick (.ok ⟨.completed, none⟩)])).calls =
        [CallbackCall.complete (rs.getLastD ⟨none, 0, c, e⟩).onComplete]
  | [], _, _ => rfl
  | x :: rs, c, e => by
    have step : stepSession (initSession c e)
        (PollEvent.render x.onComplete x.onError) =
          initSession x.onComplete x.onError := rfl
    have ih := calls_after_renders_then_complete rs x.onComplete x.onError
    calc (runSession (initSession c e)
            ((x :: rs).map (fun y => PollEvent.render y.onComplete y.onError) ++
              [PollEvent.tick (.ok ⟨.completed, none⟩)])).calls
        = (runSession (initSession x.onComplete x.onError)
            (rs.map (fun y => PollEvent.render y.onComplete y.onError) ++
              [PollEvent.tick (.ok ⟨.completed, none⟩)])).calls := by
          simp [runSession, step]
      _ = [CallbackCall.complete
            (rs.getLastD ⟨none, 0, x.onComplete, x.onError⟩).onComplete] := ih
      _ = [CallbackCall.complete
            ((x :: rs).getLastD ⟨none, 0, c, e⟩).onComplete] := by
          rw [List.getLastD_cons]
          exact congrArg (fun v => [CallbackCall.complete v])
            (getLastD_onComplete_congr ⟨none, 0, x.onComplete, x.onError⟩ x rfl rs)

/-- C6: across any sequence of re-renders that change only the callback
identities (job id and interval fixed), the polling effect runs exactly
once — no duplicate polling loop starts — and a check that then resolves a
terminal status invokes the most recently registered completion callback,
not the one captured when the loop started. -/
theorem callbacks_fresh_no_duplicate_loop (i : HookInput)
    (rest : List HookInput) (j : String) (hj : i.jobId = some j)
    (hrest : ∀ x ∈ rest, x.jobId = i.jobId ∧ x.pollInterval = i.pollInterval) :
    loopStarts (i :: rest) = 1 ∧
    (runSession (initSession i.onComplete i.onError)
        (rest.map (fun x => PollEvent.render x.onComplete x.onError) ++
          [PollEvent.tick (.ok ⟨.completed, none⟩)])).calls =
      [CallbackCall.complete (rest.getLastD i).onComplete] := by
  constructor
  · have hzero : loopStartsFrom i rest = 0 := by
      refine loopStartsFrom_const i i rest rfl (fun x hx => ?_)
      obtain ⟨h1, h2⟩ := hrest x hx
      simp [effectDeps, pollCallbackId, h1, h2]
    simp [loopStarts, hj, hzero]
  · rw [calls_after_renders_then_complete rest i.onComplete i.onError]
    exact congrArg (fun v => [CallbackCall.complete v])
      (getLastD_onComplete_congr ⟨none, 0, i.onComplete, i.onError⟩ i rfl rest)

/-- C6 witness: two re-registrations with fresh callback identities start
no second loop, and the completed check invokes the last registered
callback (identity 5), not the mounting one (identity 1). -/
theorem callbacks_fresh_no_duplicate_loop_witness :
    loopStarts [⟨some "job-1", 2000, 1, 2⟩, ⟨some "job-1", 2000, 3, 4⟩,
      ⟨some "job-1", 2000, 5, 6⟩] = 1 ∧
    (runSession (initSession 1 2)
        ([⟨some "job-1", 2000, 3, 4⟩,
            (⟨some "job-1", 2000, 5, 6⟩ : HookInput)].map
          (fun x => PollEvent.render x.onComplete x.onError) ++
          [PollEvent.tick (.ok ⟨.completed, none⟩)])).calls =
      [CallbackCall.complete 5] := by
  have h := callbacks_fresh_no_duplicate_loop ⟨some "job-1", 2000, 1, 2⟩
    [⟨some "job-1", 2000, 3, 4⟩, ⟨some "job-1", 2000, 5, 6⟩] "job-1" rfl
    (by decide)
  exact h

theorem strIncludes_notFound : strIncludes notFoundMessage "not found" = true := by
  decide

theorem orchStep_benign (jid : String) (s : OrchState)
    (hs : s.hasJob.isSome = true) :
    ∀ e : OrchEvent,
      (e = .rerender ∨ e = .tick .pending ∨ e = .tick .running) →
      orchStep jid s e = s := by
  obtain ⟨a, ha⟩ := Option.isSome_iff_exists.mp hs
  rintro e (rfl | rfl | rfl)
  · rfl
  · simp [orchStep, ha]
  · simp [orchStep, ha]

theorem orchRun_benign (jid : String) :
    ∀ (es : List OrchEvent) (s : OrchState), s.hasJob.isSome = true →
      (∀ e ∈ es, e = .rerender ∨ e = .tick .pending ∨ e = .tick .running) →
      es.foldl (orchStep jid) s = s
  | [], _, _, _ => rfl
  | e :: es, s, hs, hall => by
    have hstep := orchStep_benign jid s hs e (hall e (by simp))
    rw [List.foldl_cons, hstep]
    exact orchRun_benign jid es s hs (fun x hx => hall x (List.mem_cons_of_mem _ hx))

theorem orchRun_rerenders (jid : String) :
    ∀ (es : List OrchEvent) (s : OrchState), (∀ e ∈ es, e = .rerender) →
      es.foldl (orchStep jid) s = s
  | [], _, _ => rfl
  | e :: es, s, hall => by
    have he : e = .rerender := hall e (by simp)
    subst he
    rw [List.foldl_cons]
    exact orchRun_rerenders jid es s (fun x hx => hall x (List.mem_cons_of_mem _ hx))

theorem orchMount_eq (jid : String) :
    orchMount jid =
      { hasJob := some jid, treeLoaded := false, loading := true,
        errorMsg := none, storageHasTree := false, settledCompleted := false,
        entityFetchCalls := 1, entityFetchAfterSettle := 0, crawlCalls := 1 } := by
  simp [orchMount, runFetchEffect, orchInit, storeResult,
    fetchDependenciesBranch, strIncludes_notFound]

theorem orchStep_completed_of_mount (jid : String) :
    orchStep jid (orchMount jid) (.tick .completed) =
      { hasJob := none, treeLoaded := true, loading := false,
        errorMsg := none, storageHasTree := true, settledCompleted := true,
        entityFetchCalls := 3, entityFetchAfterSettle := 2, crawlCalls := 1 } := by
  rw [orchMount_eq]
  simp [orchStep, runFetchEffect, storeResult, fetchDependenciesBranch]

/-- C2 (counterexample): for a package whose stored tree is absent, with a
pending tick and re-renders interleaved, the concrete run triggers exactly
one crawl but calls the entity fetch API twice after the job settles as
completed — once from the completion callback and once more when clearing
the job id re-runs the fetch effect — refuting the claim's "re-calls the
entity fetch API exactly once after the job settles as completed". -/
theorem orchestrator_refetch_twice_cex :
    (orchRun "job-1"
        [.tick .pending, .rerender, .tick .completed, .rerender]).crawlCalls
      = 1 ∧
    (orchRun "job-1"
        [.tick .pending, .rerender, .tick .completed, .rerender]).entityFetchAfterSettle
      = 2 ∧
    ¬ ((orchRun "job-1"
        [.tick .pending, .rerender, .tick .completed, .rerender]).entityFetchAfterSettle
      = 1) := by
  decide

/-- C2 (amended): for every package whose stored-tree fetch fails with
NotFound, the orchestrator calls `triggerCrawl` exactly once, hands the
returned job id to the poller, and leaves its state untouched — in
particular it issues no second crawl — across any re-renders and
non-terminal ticks while that job is active; after the job settles as
`completed` it re-calls the entity fetch API exactly twice (once from the
completion callback and once more because clearing the job id re-runs the
fetch effect, which now finds the stored tree), ending with the tree
loaded and no active job. -/
theorem orchestrator_crawl_once_refetch_twice (jid : String)
    (es1 es2 : List OrchEvent)
    (h1 : ∀ e ∈ es1, e = .rerender ∨ e = .tick .pending ∨ e = .tick .running)
    (h2 : ∀ e ∈ es2, e = .rerender) :
    (orchMount jid).hasJob = some jid ∧
    (orchMount jid).crawlCalls = 1 ∧
    (orchMount jid).entityFetchCalls = 1 ∧
    orchRun jid es1 = orchMount jid ∧
    (orchRun jid (es1 ++ .tick .completed :: es2)).crawlCalls = 1 ∧
    (orchRun jid (es1 ++ .tick .completed :: es2)).entityFetchAfterSettle = 2 ∧
    (orchRun jid (es1 ++ .tick .completed :: es2)).treeLoaded = true ∧
    (orchRun jid (es1 ++ .tick .completed :: es2)).hasJob = none := by
  have hmount := orchMount_eq jid
  have hjob : (orchMount jid).hasJob.isSome = true := by rw [hmount]; rfl
  have hes1 : orchRun jid es1 = orchMount jid :=
    orchRun_benign jid es1 (orchMount jid) hjob h1
  have hrun : orchRun jid (es1 ++ .tick .completed :: es2) =
      orchStep jid (orchMount jid) (.tick .completed) := by
    show (es1 ++ .tick .completed :: es2).foldl (orchStep jid) (orchMount jid) = _
    rw [List.foldl_append, orchRun_benign jid es1 (orchMount jid) hjob h1,
      List.foldl_cons]
    exact orchRun_rerenders jid es2 _ h2
  rw [hrun, orchStep_completed_of_mount]
  rw [hmount] at hes1 ⊢
  exact ⟨rfl, rfl, rfl, hes1, rfl, rfl, rfl, rfl⟩

/-- C2 witness: the amended behaviour at job id `job-1` with one pending
tick while the job is active and one re-render after settlement. -/
theorem orchestrator_crawl_once_refetch_twice_witness :
    (orchMount "job-1").hasJob = some "job-1" ∧
    (orchMount "job-1").crawlCalls = 1 ∧
    (orchMount "job-1").entityFetchCalls = 1 ∧
    orchRun "job-1" [.tick .pending] = orchMount "job-1" ∧
    (orchRun "job-1"
      ([.tick .pending] ++ .tick .completed :: [.rerender])).crawlCalls = 1 ∧
    (orchRun "job-1"
      ([.tick .pending] ++
        .tick .completed :: [.rerender])).entityFetchAfterSettle = 2 ∧
    (orchRun "job-1"
      ([.tick .pending] ++ .tick .completed :: [.rerender])).treeLoaded = true ∧
    (orchRun "job-1"
      ([.tick .pending] ++ .tick .completed :: [.rerender])).hasJob = none :=
  orchestrator_crawl_once_refetch_twice "job-1" [.tick .pending] [.rerender]
    (by decide) (by decide)

end MongoDemo
